import Mathlib

/-!
Shallow embedding of the zap_foil repository (src/models.py, src/zap_foil.py,
src/create_batch_spec.py) and verification of its specification claims.

Modelling conventions:
* A foil row (models.py, class Foil) is a structure; the store (the `foils`
  table) is a `List Foil` in insertion order.  The store-assigned surrogate
  key `id` is used by no handler under verification and is omitted.
* External-SDK state is passed explicitly: `addrOf` maps a seed to its
  wallet address (pywaves `Address(seed=...)`), `balanceOf` maps an address
  to its on-chain asset balance, `history` maps an address to its
  transaction page (`/transactions/address/.../limit/100`).
* Python timestamps are modelled as `Nat`, amounts/balances as `Nat`
  (asset balances are non-negative), batch numbers as `Int` (SQL Integer).
* `sys.exit(code)` and uncaught Python exceptions are modelled as error
  values; a run's result carries the committed store and the submitted
  transfers, so "no mutation" and "no transfer" are directly statable.
-/

namespace ZapFoil

/-- Exit codes of zap_foil.py (lines 30-38). -/
def EXIT_NO_COMMAND : Nat := 1
def EXIT_SEED_INVALID : Nat := 10
def EXIT_BALANCE_INSUFFICIENT : Nat := 11
def EXIT_EXPIRY_INVALID : Nat := 12
def EXIT_INVALID_RECIPIENT : Nat := 13
def EXIT_TOO_MANY_TXS : Nat := 14
def EXIT_NOT_TRANSFER_ASSET : Nat := 15
def EXIT_UNRECOGNISED_ASSET_ID : Nat := 16
def EXIT_WRONG_RECIPIENT : Nat := 17

def TESTNET_ASSETID : String := "CgUrFtinLXEbJwJVjwwcppk4Vpz1nMmR3H5cQaDcUcfe"
def MAINNET_ASSETID : String := "9R3iLi4qGLVWKc16Tg98gmRvgg1usGEYd7SgC1W5D6HB"

/-- Two months in seconds, `60 * 60 * 24 * 30 * 2` (zap_foil.py lines 142, 242). -/
def two_months : Nat := 60 * 60 * 24 * 30 * 2

/-- A row of the `foils` table (models.py, class Foil).  Field order follows
the `Foil.__init__` constructor; the store-assigned `id` column is used by no
modelled handler and is omitted. -/
structure Foil where
  date : Nat
  batch : Int
  seed : String
  amount : Option Nat
  funding_txid : Option String
  funding_date : Option Nat
  expiry : Option Nat
deriving Repr, DecidableEq

/-- `Foil.get_batch` (models.py line 50): all rows with the given batch. -/
def get_batch (store : List Foil) (batch : Int) : List Foil :=
  store.filter (fun f => f.batch == batch)

/-- `Foil.get_batches_starting_at` (models.py line 54): rows with batch ≥ threshold. -/
def get_batches_starting_at (store : List Foil) (batch : Int) : List Foil :=
  store.filter (fun f => batch ≤ f.batch)

/-- `Foil.get_batches_between` (models.py line 58): rows with batch in the inclusive range. -/
def get_batches_between (store : List Foil) (batch_start batch_end : Int) : List Foil :=
  store.filter (fun f => batch_start ≤ f.batch && f.batch ≤ batch_end)

/-- The scan loop of `Foil.next_batch_id` (models.py lines 62-69), made
structurally recursive with explicit fuel: starting at `b`, return the first
batch number whose `get_batch` is empty. -/
def next_batch_scan (store : List Foil) : Nat → Int → Int
  | 0, b => b
  | fuel + 1, b => if get_batch store b = [] then b else next_batch_scan store fuel (b + 1)

/-- `Foil.next_batch_id` (models.py lines 61-69): linear scan from 1000 for the
first unused batch number.  `store.length + 1` fuel suffices: the store can
occupy at most `store.length` distinct batch numbers. -/
def next_batch_id (store : List Foil) : Int :=
  next_batch_scan store (store.length + 1) 1000

/-- The inner loop of `create_run` (zap_foil.py lines 99-104): one batch of
`size` fresh foils, every nullable column null. -/
def create_batch_foils (now : Nat) (seeds : Int → Nat → String) (b : Int) (size : Nat) :
    List Foil :=
  (List.range size).map (fun j => ⟨now, b, seeds b j, none, none, none, none⟩)

/-- The outer loop of `create_run` (zap_foil.py lines 97-107): `count` batches
with consecutive batch numbers starting from `b`. -/
def create_foils (now : Nat) (seeds : Int → Nat → String) (size : Nat) :
    Int → Nat → List Foil
  | _, 0 => []
  | b, count + 1 => create_batch_foils now seeds b size ++ create_foils now seeds size (b + 1) count

/-- `create_run` (zap_foil.py lines 92-109): pick the next free batch number,
insert `batchcount` batches of `batchsize` fresh foils, commit. -/
def create_run (store : List Foil) (batchsize batchcount : Nat) (now : Nat)
    (seeds : Int → Nat → String) : List Foil :=
  store ++ create_foils now seeds batchsize (next_batch_id store) batchcount

/-! ## Sweep handler (zap_foil.py lines 397-422) -/

/-- How a sweep run can terminate abnormally: a `sys.exit` with a code, or the
uncaught `NameError` from reading the loop-local `addr` before any assignment
(zap_foil.py line 422). -/
inductive SweepErr where
  | exitCode (n : Nat)
  | unboundLocalAddr
deriving Repr, DecidableEq

/-- Result of a sweep run: the transfers submitted (sender address, amount
sent), in order, and how the run ended.  `sweep_run` never writes the store. -/
structure SweepResult where
  transfers : List (String × Int)
  err : Option SweepErr
deriving Repr, DecidableEq

/-- The truthiness test `foil.expiry and date >= foil.expiry` (zap_foil.py
line 411): Python treats both `None` and `0` as falsy. -/
def expiryPassed (now : Nat) (f : Foil) : Bool :=
  match f.expiry with
  | none => false
  | some e => decide (e ≠ 0) && decide (e ≤ now)

/-- The per-foil loop of `sweep_run` (zap_foil.py lines 410-422).  `lastAddr`
is the Python local `addr`, which persists across iterations once assigned;
the `else` branch reads it and raises `NameError` when it was never assigned. -/
def sweep_loop (ignore_expiry : Bool) (now : Nat) (addrOf : String → String)
    (balanceOf : String → Nat) (asset_fee : Nat) :
    List Foil → Option String → SweepResult
  | [], _ => ⟨[], none⟩
  | f :: fs, lastAddr =>
    if ignore_expiry || expiryPassed now f then
      let a := addrOf f.seed
      if balanceOf a = 0 then
        sweep_loop ignore_expiry now addrOf balanceOf asset_fee fs (some a)
      else
        let rest := sweep_loop ignore_expiry now addrOf balanceOf asset_fee fs (some a)
        ⟨(a, (balanceOf a : Int) - (asset_fee : Int)) :: rest.transfers, rest.err⟩
    else
      match lastAddr with
      | none => ⟨[], some .unboundLocalAddr⟩
      | some _ => sweep_loop ignore_expiry now addrOf balanceOf asset_fee fs lastAddr

/-- `sweep_run` (zap_foil.py lines 397-422): validate the recipient, then for
each foil in the batch range sweep `balance − asset_fee` when the foil is
eligible (`ignore_expiry or foil.expiry and date >= foil.expiry`) and its
re-queried balance is nonzero. -/
def sweep_run (store : List Foil) (validRecipient : Bool) (batch_start batch_end : Int)
    (ignore_expiry : Bool) (now : Nat) (addrOf : String → String)
    (balanceOf : String → Nat) (asset_fee : Nat) : SweepResult :=
  if !validRecipient then ⟨[], some (.exitCode EXIT_INVALID_RECIPIENT)⟩
  else
    sweep_loop ignore_expiry now addrOf balanceOf asset_fee
      (get_batches_between store batch_start batch_end) none

/-! ## Funding handler (zap_foil.py lines 111-207) -/

/-- The parsed `--expiry` argument of `fund` (zap_foil.py lines 144-155):
absent, `"<N>days"`, a plain number of seconds, or an unparsable string. -/
inductive ExpiryArg where
  | absent
  | days (n : Nat)
  | seconds (n : Nat)
  | invalid
deriving Repr, DecidableEq

/-- Expiry resolution in `_fund` (zap_foil.py lines 140-155): default is
`now + two_months`; `"<N>days"` gives `now + N·86400`; a plain number gives
`now + N`; anything else exits with `EXIT_EXPIRY_INVALID`. -/
def resolve_expiry (now : Nat) : ExpiryArg → Except Nat Nat
  | .absent => .ok (now + two_months)
  | .days n => .ok (now + n * 60 * 60 * 24)
  | .seconds n => .ok (now + n)
  | .invalid => .error EXIT_EXPIRY_INVALID

/-- Result of a funding run: the committed store (unchanged when the run
exited early), the transfers submitted (recipient address, amount), and the
exit code when the run aborted. -/
structure FundResult where
  store : List Foil
  transfers : List (String × Nat)
  exit : Option Nat
deriving Repr, DecidableEq

/-- The per-foil loop of `_fund` (zap_foil.py lines 162-178), folded over the
whole store: rows outside the batch are untouched; a row in the batch is
skipped when `funding_txid` is set or its re-queried balance is nonzero, and
otherwise funded — one transfer of `amount`, then `expiry`, `funding_date`
and `funding_txid` written together.  `k` numbers the transfers so each
produces a distinct transaction id. -/
def fund_loop (batch : Int) (amount : Nat) (expiry now : Nat)
    (addrOf : String → String) (balanceOf : String → Nat) :
    List Foil → Nat → List Foil × List (String × Nat)
  | [], _ => ([], [])
  | f :: fs, k =>
    if f.batch ≠ batch then
      let rest := fund_loop batch amount expiry now addrOf balanceOf fs k
      (f :: rest.1, rest.2)
    else if f.funding_txid.isSome then
      let rest := fund_loop batch amount expiry now addrOf balanceOf fs k
      (f :: rest.1, rest.2)
    else if 0 < balanceOf (addrOf f.seed) then
      let rest := fund_loop batch amount expiry now addrOf balanceOf fs k
      (f :: rest.1, rest.2)
    else
      let funded : Foil :=
        { f with expiry := some expiry, funding_date := some now,
                 funding_txid := some ("tx" ++ toString k) }
      let rest := fund_loop batch amount expiry now addrOf balanceOf fs (k + 1)
      (funded :: rest.1, (addrOf f.seed, amount) :: rest.2)

/-- The `required_funds` accumulation of `fund_run` (zap_foil.py lines
199-201): `args.amount` added once per row of the batch, funded or not. -/
def required_funds (store : List Foil) (batch : Int) (amount : Nat) : Nat :=
  (get_batch store batch).foldl (fun acc _ => acc + amount) 0

/-- `fund_run` followed by `_fund` (zap_foil.py lines 196-207 and 135-178):
compute `required_funds` over every row of the batch, check the operator
mnemonic (`_check_mnemonic`, modelled by the boolean outcome of its
interactive confirmation), abort with `EXIT_BALANCE_INSUFFICIENT` when the
operator balance is below `required_funds` (`_create_pwaddr`, lines 123-133),
resolve the expiry argument, then run the per-foil loop. -/
def fund_run (store : List Foil) (batch : Int) (amount : Nat)
    (expiryArg : ExpiryArg) (mnemonicOk : Bool) (operatorBalance : Nat)
    (now : Nat) (addrOf : String → String) (balanceOf : String → Nat) : FundResult :=
  if !mnemonicOk then ⟨store, [], some EXIT_SEED_INVALID⟩
  else if operatorBalance < required_funds store batch amount then
    ⟨store, [], some EXIT_BALANCE_INSUFFICIENT⟩
  else
    match resolve_expiry now expiryArg with
    | .error c => ⟨store, [], some c⟩
    | .ok expiry =>
      let r := fund_loop batch amount expiry now addrOf balanceOf store 0
      ⟨r.1, r.2, none⟩

/-! ## Reconciliation handler (zap_foil.py lines 241-275) -/

/-- A transaction as returned by `/transactions/address/<addr>/limit/100`,
with the fields `fill_missing_fund_data_run` reads. -/
structure Tx where
  type : Nat
  assetId : String
  recipient : String
  id : String
  timestamp : Nat
  amount : Nat
deriving Repr, DecidableEq

/-- How a reconciliation run can terminate abnormally: a `sys.exit` with a
code, or the uncaught `IndexError` from `txs[len(txs)-1]` on an empty history
(zap_foil.py line 253). -/
inductive FillErr where
  | exitCode (n : Nat)
  | indexError
deriving Repr, DecidableEq

/-- The backfill assignment of `fill_missing_fund_data_run` (zap_foil.py
lines 263-274): `funding_date = int(tx["timestamp"] / 1000)`, expiry two
months later, and `funding_txid` / `amount` taken from the transaction. -/
def backfill (f : Foil) (tx : Tx) : Foil :=
  { f with
    expiry := some (tx.timestamp / 1000 + two_months)
    funding_date := some (tx.timestamp / 1000)
    funding_txid := some tx.id
    amount := some tx.amount }

/-- The per-foil loop of `fill_missing_fund_data_run` (zap_foil.py lines
244-274), folded over the whole store: rows outside the range or with
`funding_txid` set are untouched; otherwise the address history decides
between the four abort conditions, the empty-history `IndexError`, and the
backfill of `expiry`, `funding_date`, `funding_txid` and `amount`. -/
def fill_loop (batch_start batch_end : Int) (addrOf : String → String)
    (history : String → List Tx) : List Foil → Except FillErr (List Foil)
  | [] => .ok []
  | f :: fs =>
    if batch_start ≤ f.batch ∧ f.batch ≤ batch_end ∧ f.funding_txid = none then
      if 100 ≤ (history (addrOf f.seed)).length then .error (.exitCode EXIT_TOO_MANY_TXS)
      else
        match (history (addrOf f.seed)).getLast? with
        | none => .error .indexError
        | some tx =>
          if tx.type ≠ 4 then .error (.exitCode EXIT_NOT_TRANSFER_ASSET)
          else if tx.assetId ≠ MAINNET_ASSETID ∧ tx.assetId ≠ TESTNET_ASSETID then
            .error (.exitCode EXIT_UNRECOGNISED_ASSET_ID)
          else if tx.recipient ≠ addrOf f.seed then .error (.exitCode EXIT_WRONG_RECIPIENT)
          else (fill_loop batch_start batch_end addrOf history fs).map (backfill f tx :: ·)
    else (fill_loop batch_start batch_end addrOf history fs).map (f :: ·)

/-- Result of a reconciliation run: the committed store and the error, if any.
`db_session.commit()` runs only after the whole loop (zap_foil.py line 275),
so on any abort the committed store is the original one. -/
structure FillResult where
  store : List Foil
  err : Option FillErr
deriving Repr, DecidableEq

/-- `fill_missing_fund_data_run` (zap_foil.py lines 241-275). -/
def fill_missing_fund_data_run (store : List Foil) (batch_start batch_end : Int)
    (addrOf : String → String) (history : String → List Tx) : FillResult :=
  match fill_loop batch_start batch_end addrOf history store with
  | .ok store2 => ⟨store2, none⟩
  | .error e => ⟨store, some e⟩

/-! ## CSV export (zap_foil.py lines 376-395) -/

/-- Python string interpolation of a nullable column (`{foil.amount}` prints
`None` when unset). -/
def pyOpt {α : Type} [ToString α] : Option α → String
  | none => "None"
  | some a => toString a

/-- One data row of `csv_run` (zap_foil.py lines 386-393): `batch,` followed
by the quoted seed in seeds mode, else by address, amount, funding_txid and
funding_date. -/
def csv_row (seedsMode : Bool) (addrOf : String → String) (f : Foil) : String :=
  toString f.batch ++ "," ++
    (if seedsMode then "\"" ++ f.seed ++ "\""
     else addrOf f.seed ++ "," ++ pyOpt f.amount ++ "," ++ pyOpt f.funding_txid ++ "," ++
       pyOpt f.funding_date)

/-- The data rows written by `csv_run` (zap_foil.py lines 376-395): one row
per foil with batch ≥ the starting batch, in store order (the header line is
not a data row). -/
def csv_rows (store : List Foil) (startBatch : Int) (seedsMode : Bool)
    (addrOf : String → String) : List String :=
  (get_batches_starting_at store startBatch).map (csv_row seedsMode addrOf)

/-- Field count of a CSV row as this naive writer produces it: comma count
plus one. -/
def fieldCount (s : String) : Nat := s.toList.count ',' + 1

/-! ## Batch allocator (src/create_batch_spec.py)

The script runs with fixed module-level constants; the definitions below
parameterise those constants so the spec's "for any range and tier set"
claims are statable, and are instantiated at the script's own constants for
concrete facts.  The script truncates with `int(percent/100.0 * n)`, which
is IEEE-754 binary64 arithmetic: `percent/100.0` is the double nearest to
the exact ratio (round-to-nearest, ties-to-even), the product with `n` is
rounded the same way, and `int` truncates.  `pyPercentOf` below implements
those binary64 semantics exactly over integers (for the finite positive
normal range, which covers every magnitude this script can produce); note
`int(29/100.0 * 100) = 28`, not 29, and the model reproduces this. -/

namespace BatchSpec

/-- Script constants (create_batch_spec.py lines 7-17). -/
def batch_start : Nat := 1202
def batch_end : Nat := 1351
def batch_size : Nat := 10
def zap_cents : Nat := 100
def clump_size : Nat := 10
def batch_allocations : List (Nat × Nat) := [(80, 5), (10, 10), (10, 20)]

/-- `batch_count = batch_end - (batch_start - 1)` (line 19). -/
def batch_count (bs be : Nat) : Nat := be - (bs - 1)

/-- Fuelled `⌊log₂ n⌋` (0 for `n ≤ 1`); fuel `n` suffices since the recursion
halves `n` each step.  Written with structural fuel so the kernel can
evaluate it on literals. -/
def log2go : Nat → Nat → Nat
  | 0, _ => 0
  | fuel + 1, n => if n ≤ 1 then 0 else log2go fuel (n / 2) + 1

/-- `⌊log₂ n⌋` for `n ≥ 1`. -/
def log2n (n : Nat) : Nat := log2go n n

/-- Whether the positive rational `a / b` is below `2 ^ e`. -/
def qltPow2 (a b : Nat) (e : Int) : Bool :=
  if 0 ≤ e then decide (a < b * 2 ^ e.toNat) else decide (a * 2 ^ (-e).toNat < b)

/-- The binade of the positive rational `a / b`: the `e` with
`2 ^ e ≤ a / b < 2 ^ (e + 1)`.  The log-difference estimate is off by at
most one and is corrected by comparison. -/
def qlog2 (a b : Nat) : Int :=
  let e0 : Int := (log2n a : Int) - (log2n b : Int)
  if qltPow2 a b e0 then e0 - 1 else e0

/-- Round the positive rational `a / b` to the nearest binary64 value
(round-to-nearest, ties-to-even), returned as mantissa and binade: the value
is `m * 2 ^ (e - 52)` with `m` in `[2^52, 2^53]` (the upper bound occurs on
carry and still denotes the correctly rounded double).  `(0, 0)` encodes the
value zero. -/
def flRound (a b : Nat) : Nat × Int :=
  if a = 0 then (0, 0)
  else
    let e := qlog2 a b
    let s : Int := 52 - e
    let A := if 0 ≤ s then a * 2 ^ s.toNat else a
    let B := if 0 ≤ s then b else b * 2 ^ (-s).toNat
    let q := A / B
    let r := A % B
    let m := if 2 * r < B then q
      else if B < 2 * r then q + 1
      else if q % 2 = 0 then q else q + 1
    (m, e)

/-- `⌊m * 2 ^ (e - 52)⌋` for a nonneg mantissa/binade pair: Python `int()`
truncation of a nonnegative double. -/
def dyFloor (m : Nat) (e : Int) : Nat :=
  if 0 ≤ e - 52 then m * 2 ^ (e - 52).toNat else m / 2 ^ (52 - e).toNat

/-- Python `int(p / 100.0 * n)` in exact binary64 semantics: round `p / 100`
to a double, round the product with `n` (itself rounded to a double) to a
double, truncate.  Validated against CPython: e.g. `pyPercentOf 29 100 = 28`
and `pyPercentOf 80 10 = 8`. -/
def pyPercentOf (p n : Nat) : Nat :=
  let q1 := flRound p 100
  let nf := flRound n 1
  if q1.1 = 0 ∨ nf.1 = 0 then 0
  else
    let e12 : Int := q1.2 + nf.2 - 104
    let a2 := if 0 ≤ e12 then q1.1 * nf.1 * 2 ^ e12.toNat else q1.1 * nf.1
    let b2 : Nat := if 0 ≤ e12 then 1 else 2 ^ (-e12).toNat
    let q2 := flRound a2 b2
    dyFloor q2.1 q2.2

/-- `num = int(percent/100.0 * batch_count)` (line 27), in binary64
semantics. -/
def alloc_num (bc percent : Nat) : Nat := pyPercentOf percent bc

/-- The first loop (lines 23-31): per tier, `(percent, value, num, total_value)`
with `total_value = value * num * batch_size`. -/
def batch_allocations_calc (bc bsz : Nat) (allocs : List (Nat × Nat)) :
    List (Nat × Nat × Nat × Nat) :=
  allocs.map (fun a => (a.1, a.2, alloc_num bc a.1, a.2 * alloc_num bc a.1 * bsz))

/-- `total_zap` as accumulated by the first loop (lines 24-29): the sum of the
per-tier `total_value`s. -/
def total_zap_plan (bc bsz : Nat) (allocs : List (Nat × Nat)) : Nat :=
  ((batch_allocations_calc bc bsz allocs).map (fun e => e.2.2.2)).sum

/-- The clump construction (lines 36-42): per tier, `int(percent/100.0 *
clump_size)` copies of the tier value (binary64 semantics), concatenated in
tier order. -/
def clumps_of (cs : Nat) (allocs : List (Nat × Nat)) : List Nat :=
  allocs.flatMap (fun a => List.replicate (pyPercentOf a.1 cs) a.2)

/-- The emission loop (lines 44-53): for `current_batch` from `batch_start`
to `batch_end` inclusive, emit `(current_batch, clump_value * zap_cents +
tx_fee)` with `tx_fee = 1`, indexing the clump list cyclically. -/
def batches_of (bs be zc : Nat) (cl : List Nat) : List (Nat × Nat) :=
  (List.range (be + 1 - bs)).map (fun j => (bs + j, cl.getD (j % cl.length) 0 * zc + 1))

end BatchSpec

/-! ## Helper lemmas -/

/-- A foil whose reconciliation check chain succeeds (zap_foil.py lines
248-262): the history page is non-empty and not full, and its last
transaction is a type-4 transfer of a recognised asset to the foil's own
address. -/
def fillOk (addrOf : String → String) (history : String → List Tx) (g : Foil) : Prop :=
  (history (addrOf g.seed)).length < 100 ∧
  ∃ tx, (history (addrOf g.seed)).getLast? = some tx ∧ tx.type = 4 ∧
    (tx.assetId = MAINNET_ASSETID ∨ tx.assetId = TESTNET_ASSETID) ∧
    tx.recipient = addrOf g.seed

theorem fill_loop_cons_ok (bs be : Int) (addrOf : String → String)
    (history : String → List Tx) (g : Foil) (rest : List Foil)
    (hok : bs ≤ g.batch → g.batch ≤ be → g.funding_txid = none → fillOk addrOf history g) :
    ∃ g2, fill_loop bs be addrOf history (g :: rest) =
      (fill_loop bs be addrOf history rest).map (g2 :: ·) := by
  by_cases hin : bs ≤ g.batch ∧ g.batch ≤ be ∧ g.funding_txid = none
  · obtain ⟨hlen, tx, hlast, htype, hasset, hrecip⟩ := hok hin.1 hin.2.1 hin.2.2
    refine ⟨backfill g tx, ?_⟩
    have hnotfull : ¬ 100 ≤ (history (addrOf g.seed)).length := by omega
    rcases hasset with h | h <;>
      simp [fill_loop, hin, hnotfull, hlast, htype, hrecip, h, MAINNET_ASSETID, TESTNET_ASSETID]
  · exact ⟨g, by simp [fill_loop, hin]⟩

theorem fill_loop_append (bs be : Int) (addrOf : String → String)
    (history : String → List Tx) (pre rest : List Foil)
    (hpre : ∀ g ∈ pre, bs ≤ g.batch → g.batch ≤ be → g.funding_txid = none →
      fillOk addrOf history g) :
    ∃ pre2, fill_loop bs be addrOf history (pre ++ rest) =
      (fill_loop bs be addrOf history rest).map (pre2 ++ ·) := by
  induction pre with
  | nil =>
    refine ⟨[], ?_⟩
    cases h : fill_loop bs be addrOf history rest <;> simp [h, Except.map]
  | cons g t ih =>
    obtain ⟨t2, ht⟩ := ih (fun x hx => hpre x (List.mem_cons_of_mem _ hx))
    obtain ⟨g2, hg⟩ := fill_loop_cons_ok bs be addrOf history g (t ++ rest)
      (hpre g (List.mem_cons_self _ _))
    refine ⟨g2 :: t2, ?_⟩
    rw [List.cons_append, hg, ht]
    cases h : fill_loop bs be addrOf history rest <;> simp [h, Except.map]

/-! ## Claim C4 -/

/-- C4: when the reconciliation run reaches a foil of the batch range that
lacks `funding_txid` and whose address history query returns a full page of
100 transactions (every earlier in-range unfunded row having passed its
checks), the run exits with `EXIT_TOO_MANY_TXS` and the committed store is
the original one — no backfill of any row is committed. -/
theorem fill_full_page_aborts_uncommitted (pre post : List Foil) (f : Foil)
    (bs be : Int) (addrOf : String → String) (history : String → List Tx)
    (hpre : ∀ g ∈ pre, bs ≤ g.batch → g.batch ≤ be → g.funding_txid = none →
      fillOk addrOf history g)
    (hf1 : bs ≤ f.batch) (hf2 : f.batch ≤ be) (hf3 : f.funding_txid = none)
    (hh : (history (addrOf f.seed)).length = 100) :
    fill_missing_fund_data_run (pre ++ f :: post) bs be addrOf history =
      ⟨pre ++ f :: post, some (FillErr.exitCode EXIT_TOO_MANY_TXS)⟩ := by
  obtain ⟨pre2, hp⟩ := fill_loop_append bs be addrOf history pre (f :: post) hpre
  have hstep : fill_loop bs be addrOf history (f :: post) =
      .error (.exitCode EXIT_TOO_MANY_TXS) := by
    have hfull : 100 ≤ (history (addrOf f.seed)).length := by omega
    simp [fill_loop, hf1, hf2, hf3, hfull]
  unfold fill_missing_fund_data_run
  rw [hp, hstep]
  rfl

/-- Witness for `fill_full_page_aborts_uncommitted`: a single unfunded foil in
range whose history page holds 100 transactions. -/
theorem fill_full_page_aborts_uncommitted_witness :
    fill_missing_fund_data_run [⟨0, 5, "s1", none, none, none, none⟩] 5 5 (fun s => s)
        (fun _ => List.replicate 100 ⟨4, "a", "r", "t", 0, 0⟩) =
      ⟨[⟨0, 5, "s1", none, none, none, none⟩], some (FillErr.exitCode EXIT_TOO_MANY_TXS)⟩ :=
  fill_full_page_aborts_uncommitted [] [] ⟨0, 5, "s1", none, none, none, none⟩ 5 5
    (fun s => s) (fun _ => List.replicate 100 ⟨4, "a", "r", "t", 0, 0⟩)
    (by intro g hg; cases hg) (by decide) (by decide) rfl (by simp)

/-! ## Claim C9 -/

/-- C9: when the reconciliation run reaches a foil of the batch range that
lacks `funding_txid` and whose address history is empty (every earlier
in-range unfunded row having passed its checks), the run terminates with the
`IndexError` from `txs[len(txs)-1]` — an abnormal end that is none of the
documented exit codes — and no backfill is committed. -/
theorem fill_empty_history_index_error (pre post : List Foil) (f : Foil)
    (bs be : Int) (addrOf : String → String) (history : String → List Tx)
    (hpre : ∀ g ∈ pre, bs ≤ g.batch → g.batch ≤ be → g.funding_txid = none →
      fillOk addrOf history g)
    (hf1 : bs ≤ f.batch) (hf2 : f.batch ≤ be) (hf3 : f.funding_txid = none)
    (hh : history (addrOf f.seed) = []) :
    fill_missing_fund_data_run (pre ++ f :: post) bs be addrOf history =
      ⟨pre ++ f :: post, some FillErr.indexError⟩ ∧
    ∀ n : Nat, (FillErr.indexError : FillErr) ≠ FillErr.exitCode n := by
  refine ⟨?_, fun n h => by cases h⟩
  obtain ⟨pre2, hp⟩ := fill_loop_append bs be addrOf history pre (f :: post) hpre
  have hstep : fill_loop bs be addrOf history (f :: post) = .error .indexError := by
    simp [fill_loop, hf1, hf2, hf3, hh]
  unfold fill_missing_fund_data_run
  rw [hp, hstep]
  rfl

/-- Witness for `fill_empty_history_index_error`: a single unfunded foil in
range whose address has no transaction history. -/
theorem fill_empty_history_index_error_witness :
    fill_missing_fund_data_run [⟨0, 5, "s1", none, none, none, none⟩] 5 5 (fun s => s)
        (fun _ => []) =
      ⟨[⟨0, 5, "s1", none, none, none, none⟩], some FillErr.indexError⟩ ∧
    ∀ n : Nat, (FillErr.indexError : FillErr) ≠ FillErr.exitCode n :=
  fill_empty_history_index_error [] [] ⟨0, 5, "s1", none, none, none, none⟩ 5 5
    (fun s => s) (fun _ => []) (by intro g hg; cases hg) (by decide) (by decide) rfl rfl

/-! ## Claim C8 -/

/-- C8: in a sweep run without the ignore-expiry override, when the first
foil of the batch range is not yet expired (its expiry test is falsy), no
expired foil has been processed yet, so the skip message's read of the
loop-local `addr` raises the unbound-local error: the run crashes with
nothing swept instead of skipping the foil and continuing. -/
theorem sweep_unbound_addr_crash (store : List Foil) (bs be : Int) (now : Nat)
    (addrOf : String → String) (balanceOf : String → Nat) (fee : Nat)
    (f : Foil) (fs : List Foil)
    (hl : get_batches_between store bs be = f :: fs)
    (hne : expiryPassed now f = false) :
    sweep_run store true bs be false now addrOf balanceOf fee =
      ⟨[], some SweepErr.unboundLocalAddr⟩ := by
  simp [sweep_run, hl, sweep_loop, hne]

/-- Witness for `sweep_unbound_addr_crash`: a range whose first foil has a
null expiry and nonzero balance. -/
theorem sweep_unbound_addr_crash_witness :
    sweep_run [⟨0, 5, "s1", none, none, none, none⟩] true 5 5 false 0 (fun s => s)
        (fun _ => 7) 1 = ⟨[], some SweepErr.unboundLocalAddr⟩ :=
  sweep_unbound_addr_crash [⟨0, 5, "s1", none, none, none, none⟩] 5 5 0 (fun s => s)
    (fun _ => 7) 1 ⟨0, 5, "s1", none, none, none, none⟩ [] (by decide) (by decide)

/-! ## Claim C1 -/

/-- Erase a foil's funding transaction id. -/
def erase_funding (f : Foil) : Foil := { f with funding_txid := none }

theorem expiryPassed_erase_funding (now : Nat) (f : Foil) :
    expiryPassed now (erase_funding f) = expiryPassed now f := rfl

theorem sweep_loop_erase_funding (ig : Bool) (now : Nat) (addrOf : String → String)
    (balanceOf : String → Nat) (fee : Nat) (l : List Foil) (la : Option String) :
    sweep_loop ig now addrOf balanceOf fee (l.map erase_funding) la =
      sweep_loop ig now addrOf balanceOf fee l la := by
  induction l generalizing la with
  | nil => rfl
  | cons f fs ih =>
    simp only [List.map_cons, sweep_loop, expiryPassed_erase_funding]
    have hseed : (erase_funding f).seed = f.seed := rfl
    rw [hseed]
    by_cases he : (ig || expiryPassed now f) = true
    · simp only [he, if_true]
      by_cases hb : balanceOf (addrOf f.seed) = 0 <;> simp [hb, ih]
    · simp only [Bool.not_eq_true] at he
      simp only [he, Bool.false_eq_true, if_false]
      cases la with
      | none => rfl
      | some a => exact ih (some a)

theorem get_batches_between_map_erase (store : List Foil) (bs be : Int) :
    get_batches_between (store.map erase_funding) bs be =
      (get_batches_between store bs be).map erase_funding := by
  induction store with
  | nil => rfl
  | cons f fs ih =>
    have hb : (erase_funding f).batch = f.batch := rfl
    by_cases h : (bs ≤ f.batch && f.batch ≤ be) = true <;>
      simp [get_batches_between, hb, h] at ih ⊢ <;> simpa [get_batches_between] using ih

theorem sweep_loop_err_none_transfers (ig : Bool) (now : Nat) (addrOf : String → String)
    (balanceOf : String → Nat) (fee : Nat) (l : List Foil) (la : Option String)
    (h : (sweep_loop ig now addrOf balanceOf fee l la).err = none) :
    (sweep_loop ig now addrOf balanceOf fee l la).transfers =
      (l.filter (fun f => (ig || expiryPassed now f) && balanceOf (addrOf f.seed) != 0)).map
        (fun f => (addrOf f.seed, (balanceOf (addrOf f.seed) : Int) - (fee : Int))) := by
  induction l generalizing la with
  | nil => rfl
  | cons f fs ih =>
    by_cases he : (ig || expiryPassed now f) = true
    · by_cases hb : balanceOf (addrOf f.seed) = 0
      · have hrec := ih (some (addrOf f.seed))
        simp only [sweep_loop, he, if_true, hb, if_pos rfl] at h ⊢
        simp [List.filter_cons, he, hb, hrec h]
      · have hrec := ih (some (addrOf f.seed))
        simp only [sweep_loop, he, if_true, if_neg hb] at h ⊢
        simp [List.filter_cons, he, hb, hrec h]
    · simp only [Bool.not_eq_true] at he
      cases la with
      | none => simp [sweep_loop, he] at h
      | some a =>
        have hrec := ih (some a)
        simp only [sweep_loop, he, Bool.false_eq_true, if_false] at h ⊢
        simp [List.filter_cons, he, hrec h]

/-- C1 counterexample: the sweep handler never reads `funding_txid`.  With the
ignore-expiry override set, a foil whose `funding_txid` is null and whose
balance is nonzero is swept (here: balance 5, fee 1, transferring 4), refuting
"it never submits a sweep transfer for a foil whose funding_txid is null". -/
theorem sweep_sweeps_unfunded_foil_cex :
    (⟨0, 3, "s1", none, none, none, none⟩ : Foil).funding_txid = none ∧
    sweep_run [⟨0, 3, "s1", none, none, none, none⟩] true 3 3 true 0 (fun s => s)
        (fun _ => 5) 1 = ⟨[("s1", 4)], none⟩ := by
  constructor
  · rfl
  · decide

/-- C1 (amended): a sweep run that terminates without error submits a
transfer of `balance − asset_fee` for exactly those foils of the batch range
that pass the expiry test (`ignore_expiry or foil.expiry and now >=
foil.expiry`) and whose re-queried balance is nonzero; `funding_txid` is
never consulted — erasing every foil's `funding_txid` leaves the run's result
unchanged, so a null-`funding_txid` foil meeting those conditions is swept. -/
theorem sweep_selection_txid_blind (store : List Foil) (bs be : Int) (ig : Bool)
    (now : Nat) (addrOf : String → String) (balanceOf : String → Nat) (fee : Nat)
    (herr : (sweep_run store true bs be ig now addrOf balanceOf fee).err = none) :
    (sweep_run store true bs be ig now addrOf balanceOf fee).transfers =
      ((get_batches_between store bs be).filter
          (fun f => (ig || expiryPassed now f) && balanceOf (addrOf f.seed) != 0)).map
        (fun f => (addrOf f.seed, (balanceOf (addrOf f.seed) : Int) - (fee : Int))) ∧
    sweep_run (store.map erase_funding) true bs be ig now addrOf balanceOf fee =
      sweep_run store true bs be ig now addrOf balanceOf fee := by
  constructor
  · exact sweep_loop_err_none_transfers ig now addrOf balanceOf fee
      (get_batches_between store bs be) none herr
  · show sweep_loop ig now addrOf balanceOf fee
      (get_batches_between (store.map erase_funding) bs be) none = _
    rw [get_batches_between_map_erase, sweep_loop_erase_funding]
    rfl

/-- Witness for `sweep_selection_txid_blind`: one expired foil with balance 5
and one unexpired foil after it; the run completes and sweeps exactly the
expired one. -/
theorem sweep_selection_txid_blind_witness :
    (sweep_run [⟨0, 3, "s1", none, none, none, some 10⟩,
        ⟨0, 3, "s2", none, none, none, some 90⟩] true 3 3 false 20 (fun s => s)
        (fun _ => 5) 1).transfers =
      ((get_batches_between [⟨0, 3, "s1", none, none, none, some 10⟩,
          ⟨0, 3, "s2", none, none, none, some 90⟩] 3 3).filter
          (fun f => (false || expiryPassed 20 f) && (fun (_ : String) => 5) ((fun (s : String) => s) f.seed) != 0)).map
        (fun f => ((fun (s : String) => s) f.seed,
          ((fun (_ : String) => 5) ((fun (s : String) => s) f.seed) : Int) - ((1 : Nat) : Int))) ∧
    sweep_run ([⟨0, 3, "s1", none, none, none, some 10⟩,
        ⟨0, 3, "s2", none, none, none, some 90⟩].map erase_funding) true 3 3 false 20
        (fun s => s) (fun _ => 5) 1 =
      sweep_run [⟨0, 3, "s1", none, none, none, some 10⟩,
        ⟨0, 3, "s2", none, none, none, some 90⟩] true 3 3 false 20 (fun s => s)
        (fun _ => 5) 1 :=
  sweep_selection_txid_blind [⟨0, 3, "s1", none, none, none, some 10⟩,
    ⟨0, 3, "s2", none, none, none, some 90⟩] 3 3 false 20 (fun s => s) (fun _ => 5) 1
    (by decide)

/-! ## Claim C2 -/

theorem foldl_const_add (amount : Nat) :
    ∀ (l : List Foil) (a : Nat), l.foldl (fun acc _ => acc + amount) a = a + amount * l.length
  | [], a => by simp
  | _ :: fs, a => by
    rw [List.foldl_cons, foldl_const_add amount fs (a + amount)]
    simp [List.length_cons, Nat.mul_add]
    omega

theorem required_funds_eq (store : List Foil) (batch : Int) (amount : Nat) :
    required_funds store batch amount = amount * (get_batch store batch).length := by
  rw [required_funds, foldl_const_add]
  omega

/-- C2 counterexample: `fund_run` accumulates `required_funds` over every row
of the batch, funded or not (zap_foil.py lines 199-201).  With two foils
already funded and one not, per-foil amount 10 and operator balance 15, the
sum over not-yet-funded foils is 10 ≤ 15, yet the handler aborts with
`EXIT_BALANCE_INSUFFICIENT` because it demands 30. -/
theorem fund_required_over_all_foils_cex :
    10 * ((get_batch [⟨0, 5, "a1", some 10, some "t1", some 1, some 9⟩,
        ⟨0, 5, "a2", some 10, some "t2", some 1, some 9⟩,
        ⟨0, 5, "a3", none, none, none, none⟩] 5).filter
          (fun f => f.funding_txid.isNone)).length ≤ 15 ∧
    fund_run [⟨0, 5, "a1", some 10, some "t1", some 1, some 9⟩,
        ⟨0, 5, "a2", some 10, some "t2", some 1, some 9⟩,
        ⟨0, 5, "a3", none, none, none, none⟩] 5 10 .absent true 15 0 (fun s => s)
        (fun _ => 0) =
      ⟨[⟨0, 5, "a1", some 10, some "t1", some 1, some 9⟩,
        ⟨0, 5, "a2", some 10, some "t2", some 1, some 9⟩,
        ⟨0, 5, "a3", none, none, none, none⟩], [], some EXIT_BALANCE_INSUFFICIENT⟩ := by
  constructor
  · decide
  · decide

/-- C2 (amended): the funding handler aborts with `EXIT_BALANCE_INSUFFICIENT`
— before any transfer and with the store unchanged — exactly when the
operator balance is below the per-foil amount times the number of ALL foils
of the batch (funded foils included, since `required_funds` counts every
row); with at least that sum it proceeds to fund. -/
theorem fund_balance_precheck (store : List Foil) (batch : Int) (amount : Nat)
    (ea : ExpiryArg) (ob now : Nat) (addrOf : String → String)
    (balanceOf : String → Nat) (hea : ea ≠ ExpiryArg.invalid) :
    required_funds store batch amount = amount * (get_batch store batch).length ∧
    (ob < amount * (get_batch store batch).length →
      fund_run store batch amount ea true ob now addrOf balanceOf =
        ⟨store, [], some EXIT_BALANCE_INSUFFICIENT⟩) ∧
    (amount * (get_batch store batch).length ≤ ob →
      (fund_run store batch amount ea true ob now addrOf balanceOf).exit = none) := by
  refine ⟨required_funds_eq store batch amount, fun hlt => ?_, fun hge => ?_⟩
  · rw [fund_run]
    rw [required_funds_eq] at *
    simp [hlt]
  · have hnlt : ¬ ob < required_funds store batch amount := by
      rw [required_funds_eq]; omega
    rw [fund_run]
    simp only [Bool.not_true, Bool.false_eq_true, if_false, hnlt]
    cases ea with
    | invalid => exact absurd rfl hea
    | absent => rfl
    | days n => rfl
    | seconds n => rfl

/-- Witness for `fund_balance_precheck`: one unfunded foil, amount 10,
operator balance 9 — the run aborts with the insufficient-balance code and
touches nothing. -/
theorem fund_balance_precheck_witness :
    fund_run [⟨0, 7, "a1", none, none, none, none⟩] 7 10 .absent true 9 0 (fun s => s)
        (fun _ => 0) =
      ⟨[⟨0, 7, "a1", none, none, none, none⟩], [], some EXIT_BALANCE_INSUFFICIENT⟩ :=
  (fund_balance_precheck [⟨0, 7, "a1", none, none, none, none⟩] 7 10 .absent 9 0
    (fun s => s) (fun _ => 0) (by decide)).2.1 (by decide)

/-! ## Claim C3 -/

theorem fund_loop_skips_funded (batch : Int) (amount expiry now : Nat)
    (addrOf : String → String) (balanceOf : String → Nat) :
    ∀ (s : List Foil) (k : Nat),
      (∀ f ∈ s, f.batch = batch → f.funding_txid.isSome = true) →
      fund_loop batch amount expiry now addrOf balanceOf s k = (s, [])
  | [], _, _ => rfl
  | f :: fs, k, h => by
    have hrest := fund_loop_skips_funded batch amount expiry now addrOf balanceOf fs k
      (fun g hg => h g (List.mem_cons_of_mem _ hg))
    by_cases hb : f.batch = batch
    · have hsome := h f (List.mem_cons_self _ _) hb
      simp [fund_loop, hb, hsome, hrest]
    · simp [fund_loop, hb, hrest]

theorem fund_run_noop_of_all_funded (s : List Foil) (batch : Int) (amount : Nat)
    (ea : ExpiryArg) (mo : Bool) (ob now : Nat) (addrOf : String → String)
    (balanceOf : String → Nat)
    (h : ∀ f ∈ get_batch s batch, f.funding_txid.isSome = true) :
    (fund_run s batch amount ea mo ob now addrOf balanceOf).transfers = [] ∧
    (fund_run s batch amount ea mo ob now addrOf balanceOf).store = s := by
  have h2 : ∀ f ∈ s, f.batch = batch → f.funding_txid.isSome = true := by
    intro f hf hb
    exact h f (List.mem_filter.mpr ⟨hf, by simp [hb]⟩)
  rw [fund_run]
  cases mo with
  | false => exact ⟨rfl, rfl⟩
  | true =>
    by_cases hob : ob < required_funds s batch amount
    · simp [hob]
    · cases ea <;> simp [hob, resolve_expiry, fund_loop_skips_funded _ _ _ _ _ _ s 0 h2]

/-- C3: running the funding handler a second time on a batch whose foils all
carry a `funding_txid` after the first run submits no transfer and leaves
every foil row unchanged — each foil is skipped at the `funding_txid` check
(or the run aborts at the balance precheck, again without transfers or
writes), so funding is idempotent. -/
theorem fund_second_run_noop (store : List Foil) (batch : Int) (amount : Nat)
    (ea1 ea2 : ExpiryArg) (mo1 mo2 : Bool) (ob1 ob2 now1 now2 : Nat)
    (ad1 ad2 : String → String) (bl1 bl2 : String → Nat)
    (hall : ∀ f ∈ get_batch (fund_run store batch amount ea1 mo1 ob1 now1 ad1 bl1).store batch,
      f.funding_txid.isSome = true) :
    (fund_run (fund_run store batch amount ea1 mo1 ob1 now1 ad1 bl1).store
        batch amount ea2 mo2 ob2 now2 ad2 bl2).transfers = [] ∧
    (fund_run (fund_run store batch amount ea1 mo1 ob1 now1 ad1 bl1).store
        batch amount ea2 mo2 ob2 now2 ad2 bl2).store =
      (fund_run store batch amount ea1 mo1 ob1 now1 ad1 bl1).store :=
  fund_run_noop_of_all_funded _ batch amount ea2 mo2 ob2 now2 ad2 bl2 hall

/-- Witness for `fund_second_run_noop`: a first run funds the single foil of
batch 7; the second run, whatever its chain state, transfers nothing and
changes nothing. -/
theorem fund_second_run_noop_witness :
    (fund_run (fund_run [⟨0, 7, "a1", none, none, none, none⟩] 7 10 .absent true 100 50
        (fun s => s) (fun _ => 0)).store 7 10 .absent true 100 60 (fun s => s)
        (fun _ => 0)).transfers = [] ∧
    (fund_run (fund_run [⟨0, 7, "a1", none, none, none, none⟩] 7 10 .absent true 100 50
        (fun s => s) (fun _ => 0)).store 7 10 .absent true 100 60 (fun s => s)
        (fun _ => 0)).store =
      (fund_run [⟨0, 7, "a1", none, none, none, none⟩] 7 10 .absent true 100 50
        (fun s => s) (fun _ => 0)).store :=
  fund_second_run_noop [⟨0, 7, "a1", none, none, none, none⟩] 7 10 .absent .absent
    true true 100 100 50 60 (fun s => s) (fun s => s) (fun _ => 0) (fun _ => 0) (by decide)

/-! ## Claim C6 -/

/-- The invariant of §3 of the spec: every foil's `funding_txid` and
`funding_date` are either both null or both set. -/
def fundingFieldsAligned (s : List Foil) : Bool :=
  s.all (fun f => f.funding_txid.isSome == f.funding_date.isSome)

theorem create_foils_mem_unfunded (now : Nat) (seeds : Int → Nat → String) (size : Nat) :
    ∀ (m : Nat) (b : Int) (f : Foil), f ∈ create_foils now seeds size b m →
      f.funding_txid = none ∧ f.funding_date = none
  | 0, _, _, h => by cases h
  | m + 1, b, f, h => by
    rw [create_foils] at h
    rcases List.mem_append.mp h with h1 | h2
    · rw [create_batch_foils] at h1
      obtain ⟨j, _, rfl⟩ := List.mem_map.mp h1
      exact ⟨rfl, rfl⟩
    · exact create_foils_mem_unfunded now seeds size m (b + 1) f h2

theorem fund_loop_mem (batch : Int) (amount expiry now : Nat) (ad : String → String)
    (bl : String → Nat) :
    ∀ (s : List Foil) (k : Nat) (f : Foil),
      f ∈ (fund_loop batch amount expiry now ad bl s k).1 →
      f ∈ s ∨ (f.funding_txid.isSome = true ∧ f.funding_date.isSome = true)
  | [], _, _, h => by cases h
  | g :: gs, k, f, h => by
    rw [fund_loop] at h
    by_cases h1 : g.batch ≠ batch
    · rw [if_pos h1] at h
      rcases List.mem_cons.mp h with rfl | hr
      · exact .inl (List.mem_cons_self _ _)
      · rcases fund_loop_mem batch amount expiry now ad bl gs k f hr with hm | hfnd
        · exact .inl (List.mem_cons_of_mem _ hm)
        · exact .inr hfnd
    · rw [if_neg h1] at h
      by_cases h2 : g.funding_txid.isSome
      · rw [if_pos h2] at h
        rcases List.mem_cons.mp h with rfl | hr
        · exact .inl (List.mem_cons_self _ _)
        · rcases fund_loop_mem batch amount expiry now ad bl gs k f hr with hm | hfnd
          · exact .inl (List.mem_cons_of_mem _ hm)
          · exact .inr hfnd
      · rw [if_neg h2] at h
        by_cases h3 : 0 < bl (ad g.seed)
        · rw [if_pos h3] at h
          rcases List.mem_cons.mp h with rfl | hr
          · exact .inl (List.mem_cons_self _ _)
          · rcases fund_loop_mem batch amount expiry now ad bl gs k f hr with hm | hfnd
            · exact .inl (List.mem_cons_of_mem _ hm)
            · exact .inr hfnd
        · rw [if_neg h3] at h
          rcases List.mem_cons.mp h with rfl | hr
          · exact .inr ⟨rfl, rfl⟩
          · rcases fund_loop_mem batch amount expiry now ad bl gs (k + 1) f hr with hm | hfnd
            · exact .inl (List.mem_cons_of_mem _ hm)
            · exact .inr hfnd

theorem fill_loop_mem (bs be : Int) (ad : String → String) (hist : String → List Tx) :
    ∀ (s s' : List Foil), fill_loop bs be ad hist s = .ok s' →
      ∀ f ∈ s', f ∈ s ∨ (f.funding_txid.isSome = true ∧ f.funding_date.isSome = true)
  | [], s', h, f, hf => by
    rw [fill_loop] at h
    cases h
    cases hf
  | g :: gs, s', h, f, hf => by
    have hrest : ∀ t, fill_loop bs be ad hist gs = .ok t → ∀ x ∈ t,
        x ∈ gs ∨ (x.funding_txid.isSome = true ∧ x.funding_date.isSome = true) :=
      fun t ht x hx => fill_loop_mem bs be ad hist gs t ht x hx
    rw [fill_loop] at h
    split at h
    · split at h
      · cases h
      · split at h
        · cases h
        · split at h
          · cases h
          · split at h
            · cases h
            · split at h
              · cases h
              · cases hrec : fill_loop bs be ad hist gs with
                | error e => rw [hrec] at h; simp [Except.map] at h
                | ok t =>
                  rw [hrec] at h
                  simp only [Except.map, Except.ok.injEq] at h
                  subst h
                  rcases List.mem_cons.mp hf with rfl | hr
                  · exact .inr ⟨rfl, rfl⟩
                  · rcases hrest t hrec f hr with hm | hfnd
                    · exact .inl (List.mem_cons_of_mem _ hm)
                    · exact .inr hfnd
    · cases hrec : fill_loop bs be ad hist gs with
      | error e => rw [hrec] at h; simp [Except.map] at h
      | ok t =>
        rw [hrec] at h
        simp only [Except.map, Except.ok.injEq] at h
        subst h
        rcases List.mem_cons.mp hf with rfl | hr
        · exact .inl (List.mem_cons_self _ _)
        · rcases hrest t hrec f hr with hm | hfnd
          · exact .inl (List.mem_cons_of_mem _ hm)
          · exact .inr hfnd

theorem fund_run_store_mem (s : List Foil) (batch : Int) (amount : Nat) (ea : ExpiryArg)
    (mo : Bool) (ob now : Nat) (ad : String → String) (bl : String → Nat) :
    ∀ f ∈ (fund_run s batch amount ea mo ob now ad bl).store,
      f ∈ s ∨ (f.funding_txid.isSome = true ∧ f.funding_date.isSome = true) := by
  intro f hf
  rw [fund_run] at hf
  cases mo with
  | false => exact .inl hf
  | true =>
    by_cases hob : ob < required_funds s batch amount
    · simp only [hob, if_true, Bool.not_true, Bool.false_eq_true, if_false] at hf
      exact .inl hf
    · cases ea with
      | invalid => simp only [hob, resolve_expiry] at hf; exact .inl hf
      | absent =>
        simp only [hob, resolve_expiry, Bool.not_true, Bool.false_eq_true, if_false] at hf
        exact fund_loop_mem _ _ _ _ _ _ s 0 f hf
      | days n =>
        simp only [hob, resolve_expiry, Bool.not_true, Bool.false_eq_true, if_false] at hf
        exact fund_loop_mem _ _ _ _ _ _ s 0 f hf
      | seconds n =>
        simp only [hob, resolve_expiry, Bool.not_true, Bool.false_eq_true, if_false] at hf
        exact fund_loop_mem _ _ _ _ _ _ s 0 f hf

/-- C6: in every store state reachable through the modelled mutating handlers
— batch creation, funding, reconciliation — a foil's `funding_txid` and
`funding_date` are both null or both set: creation inserts rows with both
null, and the only updates (zap_foil.py lines 172-178 and 263-274) assign
both in the same committed write. -/
theorem funding_fields_set_together (store : List Foil) (size count now1 : Nat)
    (seeds : Int → Nat → String) (batch : Int) (amount : Nat) (ea : ExpiryArg)
    (mo : Bool) (ob now2 : Nat) (ad1 : String → String) (bl : String → Nat)
    (bs be : Int) (ad2 : String → String) (hist : String → List Tx)
    (hinv : fundingFieldsAligned store = true) :
    fundingFieldsAligned (create_run store size count now1 seeds) = true ∧
    fundingFieldsAligned (fund_run store batch amount ea mo ob now2 ad1 bl).store = true ∧
    fundingFieldsAligned (fill_missing_fund_data_run store bs be ad2 hist).store = true := by
  rw [fundingFieldsAligned, List.all_eq_true] at hinv
  refine ⟨?_, ?_, ?_⟩
  · rw [fundingFieldsAligned, List.all_eq_true]
    intro f hf
    rcases List.mem_append.mp hf with hm | hnew
    · exact hinv f hm
    · obtain ⟨ht, hd⟩ := create_foils_mem_unfunded now1 seeds size count
        (next_batch_id store) f hnew
      rw [ht, hd]
      decide
  · rw [fundingFieldsAligned, List.all_eq_true]
    intro f hf
    rcases fund_run_store_mem store batch amount ea mo ob now2 ad1 bl f hf with hm | ⟨ht, hd⟩
    · exact hinv f hm
    · rw [ht, hd]; decide
  · rw [fundingFieldsAligned, List.all_eq_true]
    intro f hf
    rw [fill_missing_fund_data_run] at hf
    cases hrec : fill_loop bs be ad2 hist store with
    | error e =>
      rw [hrec] at hf
      exact hinv f hf
    | ok t =>
      rw [hrec] at hf
      rcases fill_loop_mem bs be ad2 hist store t hrec f hf with hm | ⟨ht, hd⟩
      · exact hinv f hm
      · rw [ht, hd]; decide

/-- Witness for `funding_fields_set_together` on a two-foil store, one funded
and one not. -/
theorem funding_fields_set_together_witness :
    fundingFieldsAligned (create_run [⟨0, 1000, "a1", none, none, none, none⟩,
      ⟨0, 1000, "a2", some 5, some "t1", some 2, some 9⟩] 2 2 3 (fun _ _ => "n")) = true ∧
    fundingFieldsAligned (fund_run [⟨0, 1000, "a1", none, none, none, none⟩,
      ⟨0, 1000, "a2", some 5, some "t1", some 2, some 9⟩] 1000 5 .absent true 100 4
      (fun s => s) (fun _ => 0)).store = true ∧
    fundingFieldsAligned (fill_missing_fund_data_run [⟨0, 1000, "a1", none, none, none, none⟩,
      ⟨0, 1000, "a2", some 5, some "t1", some 2, some 9⟩] 1000 1000 (fun s => s)
      (fun _ => [⟨4, MAINNET_ASSETID, "a1", "t2", 7000, 5⟩])).store = true :=
  funding_fields_set_together [⟨0, 1000, "a1", none, none, none, none⟩,
    ⟨0, 1000, "a2", some 5, some "t1", some 2, some 9⟩] 2 2 3 (fun _ _ => "n") 1000 5
    .absent true 100 4 (fun s => s) (fun _ => 0) 1000 1000 (fun s => s)
    (fun _ => [⟨4, MAINNET_ASSETID, "a1", "t2", 7000, 5⟩]) (by decide)

/-! ## Claim C7 -/

theorem toList_append_str (a b : String) : (a ++ b).toList = a.toList ++ b.toList := rfl

theorem fieldCount_csv_row_seeds (addrOf : String → String) (f : Foil)
    (hseed : f.seed.toList.count ',' = 0)
    (hbatch : (toString f.batch).toList.count ',' = 0) :
    fieldCount (csv_row true addrOf f) = 2 := by
  rw [fieldCount, csv_row]
  simp only [if_true, toList_append_str, List.count_append, hseed, hbatch]
  decide

/-- C7 counterexample: in secrets-only mode each data row is
`{batch},"{seed}"` (zap_foil.py lines 388-390) — two comma-separated fields,
not one; here a one-foil export yields a single row whose field count is 2. -/
theorem csv_seeds_two_fields_cex :
    (csv_rows [⟨0, 5, "word list", none, none, none, none⟩] 0 true (fun s => s)).map
        fieldCount = [2] ∧ (2 : Nat) ≠ 1 := by
  constructor
  · decide
  · decide

/-- C7 (amended): the number of data rows equals the number of foils in scope
(batch ≥ the starting batch), in both modes; and in secrets-only mode each
data row carries exactly TWO fields — the batch number and the quoted seed —
provided neither contains a comma. -/
theorem csv_rows_shape (store : List Foil) (startBatch : Int) (addrOf : String → String)
    (hcm : store.all (fun f => f.seed.toList.count ',' == 0 &&
      (toString f.batch).toList.count ',' == 0) = true) :
    (csv_rows store startBatch true addrOf).length =
      (get_batches_starting_at store startBatch).length ∧
    (csv_rows store startBatch false addrOf).length =
      (get_batches_starting_at store startBatch).length ∧
    (csv_rows store startBatch true addrOf).all (fun r => fieldCount r == 2) = true := by
  refine ⟨List.length_map _ _, List.length_map _ _, ?_⟩
  rw [List.all_eq_true]
  intro r hr
  rw [csv_rows] at hr
  obtain ⟨f, hf, rfl⟩ := List.mem_map.mp hr
  have hf2 : f ∈ store := List.mem_of_mem_filter hf
  have hc := List.all_eq_true.mp hcm f hf2
  simp only [Bool.and_eq_true, beq_iff_eq] at hc
  rw [fieldCount_csv_row_seeds addrOf f hc.1 hc.2]
  decide

/-- Witness for `csv_rows_shape`: two foils, one in scope; one data row of
two fields. -/
theorem csv_rows_shape_witness :
    (csv_rows [⟨0, 5, "word list", none, none, none, none⟩,
        ⟨0, 2, "other words", none, none, none, none⟩] 3 true (fun s => s)).length =
      (get_batches_starting_at [⟨0, 5, "word list", none, none, none, none⟩,
        ⟨0, 2, "other words", none, none, none, none⟩] 3).length ∧
    (csv_rows [⟨0, 5, "word list", none, none, none, none⟩,
        ⟨0, 2, "other words", none, none, none, none⟩] 3 false (fun s => s)).length =
      (get_batches_starting_at [⟨0, 5, "word list", none, none, none, none⟩,
        ⟨0, 2, "other words", none, none, none, none⟩] 3).length ∧
    (csv_rows [⟨0, 5, "word list", none, none, none, none⟩,
        ⟨0, 2, "other words", none, none, none, none⟩] 3 true (fun s => s)).all
      (fun r => fieldCount r == 2) = true :=
  csv_rows_shape [⟨0, 5, "word list", none, none, none, none⟩,
    ⟨0, 2, "other words", none, none, none, none⟩] 3 (fun s => s) (by decide)

/-! ## Claim C10 -/

theorem get_batch_append (s t : List Foil) (b : Int) :
    get_batch (s ++ t) b = get_batch s b ++ get_batch t b :=
  List.filter_append _ _

theorem get_batch_create_batch_foils_self (now : Nat) (seeds : Int → Nat → String)
    (b : Int) (size : Nat) :
    get_batch (create_batch_foils now seeds b size) b =
      create_batch_foils now seeds b size := by
  rw [get_batch, List.filter_eq_self]
  intro f hf
  rw [create_batch_foils] at hf
  obtain ⟨j, _, rfl⟩ := List.mem_map.mp hf
  simp

theorem get_batch_create_batch_foils_ne (now : Nat) (seeds : Int → Nat → String)
    (b b1 : Int) (size : Nat) (h : b ≠ b1) :
    get_batch (create_batch_foils now seeds b size) b1 = [] := by
  rw [get_batch, List.filter_eq_nil_iff]
  intro f hf
  rw [create_batch_foils] at hf
  obtain ⟨j, _, rfl⟩ := List.mem_map.mp hf
  simp [h]

theorem get_batch_create_foils_high (now : Nat) (seeds : Int → Nat → String)
    (size : Nat) (b1 : Int) :
    ∀ (m : Nat) (b : Int), b1 < b → get_batch (create_foils now seeds size b m) b1 = []
  | 0, _, _ => rfl
  | m + 1, b, h => by
    rw [create_foils, get_batch_append,
      get_batch_create_foils_high now seeds size b1 m (b + 1) (by omega),
      get_batch_create_batch_foils_ne now seeds b b1 size (by omega)]
    rfl

theorem get_batch_create_foils_length (now : Nat) (seeds : Int → Nat → String)
    (size : Nat) (b1 : Int) :
    ∀ (m : Nat) (b : Int), b ≤ b1 → b1 < b + (m : Int) →
      (get_batch (create_foils now seeds size b m) b1).length = size
  | 0, b, h1, h2 => by simp at h2; omega
  | m + 1, b, h1, h2 => by
    rw [create_foils, get_batch_append, List.length_append]
    by_cases hb : b = b1
    · subst hb
      rw [get_batch_create_batch_foils_self,
        get_batch_create_foils_high now seeds size b m (b + 1) (by omega)]
      simp [create_batch_foils]
    · have hle : b + 1 ≤ b1 := by omega
      have hlt : b1 < b + 1 + (m : Int) := by push_cast at h2 ⊢; omega
      rw [get_batch_create_batch_foils_ne now seeds b b1 size hb,
        get_batch_create_foils_length now seeds size b1 m (b + 1) hle hlt]
      simp

/-- C10: `next_batch_id` stops at the first free batch number ≥ 1000, and
`create_run` then assigns consecutive numbers from it; when a later batch
number inside that window is already occupied, the run inserts its
`batchsize` new foils into that pre-existing batch (models.py lines 61-69,
zap_foil.py lines 92-109). -/
theorem create_reuses_occupied_batch (store : List Foil) (size count now : Nat)
    (seeds : Int → Nat → String) (b1 : Int)
    (h1 : next_batch_id store < b1)
    (h2 : b1 < next_batch_id store + (count : Int))
    (hocc : get_batch store b1 ≠ []) :
    0 < (get_batch store b1).length ∧
    (get_batch (create_run store size count now seeds) b1).length =
      (get_batch store b1).length + size := by
  refine ⟨List.length_pos.mpr hocc, ?_⟩
  rw [create_run, get_batch_append, List.length_append,
    get_batch_create_foils_length now seeds size b1 count (next_batch_id store)
      (by omega) h2]

/-- Witness for `create_reuses_occupied_batch`: occupied batches 1000 and
1002; the scan yields the gap 1001, and creating 2 batches of 1 foil lands
the second new foil in the occupied batch 1002. -/
theorem create_reuses_occupied_batch_witness :
    0 < (get_batch [⟨0, 1000, "a1", none, none, none, none⟩,
      ⟨0, 1002, "a2", none, none, none, none⟩] 1002).length ∧
    (get_batch (create_run [⟨0, 1000, "a1", none, none, none, none⟩,
        ⟨0, 1002, "a2", none, none, none, none⟩] 1 2 3 (fun _ _ => "n")) 1002).length =
      (get_batch [⟨0, 1000, "a1", none, none, none, none⟩,
        ⟨0, 1002, "a2", none, none, none, none⟩] 1002).length + 1 :=
  create_reuses_occupied_batch [⟨0, 1000, "a1", none, none, none, none⟩,
    ⟨0, 1002, "a2", none, none, none, none⟩] 1 2 3 (fun _ _ => "n") 1002 (by decide)
    (by decide) (by decide)

/-! ## Claim C5 -/

namespace BatchSpec

theorem clumps_of_sum (cs : Nat) :
    ∀ (allocs : List (Nat × Nat)),
      (clumps_of cs allocs).sum = (allocs.map (fun a => pyPercentOf a.1 cs * a.2)).sum
  | [] => rfl
  | a :: t => by
    have ht := clumps_of_sum cs t
    simp only [clumps_of, List.flatMap_cons, List.sum_append, List.map_cons,
      List.sum_cons, List.sum_replicate, smul_eq_mul] at ht ⊢
    rw [ht]

theorem sum_getD_range : ∀ (cl : List Nat),
    ((List.range cl.length).map (fun i => cl.getD i 0)).sum = cl.sum
  | [] => rfl
  | x :: xs => by
    have ht := sum_getD_range xs
    rw [List.length_cons, List.range_succ_eq_map]
    simp only [List.map_cons, List.map_map, List.sum_cons, List.getD_cons_zero]
    have he : (List.range xs.length).map ((fun i => (x :: xs).getD i 0) ∘ Nat.succ) =
        (List.range xs.length).map (fun i => xs.getD i 0) := by
      apply List.map_congr_left
      intro i _
      rfl
    rw [he, ht]

theorem sum_cycle (cl : List Nat) (hl : 0 < cl.length) :
    ∀ m : Nat,
      ((List.range (m * cl.length)).map (fun j => cl.getD (j % cl.length) 0)).sum =
        m * cl.sum
  | 0 => by simp
  | m + 1 => by
    have hrec := sum_cycle cl hl m
    rw [Nat.succ_mul, List.range_add, List.map_append, List.sum_append, hrec,
      List.map_map]
    have he : ∀ i ∈ List.range cl.length,
        ((fun j => cl.getD (j % cl.length) 0) ∘ (m * cl.length + ·)) i = cl.getD i 0 := by
      intro i hi
      have hi2 : i < cl.length := List.mem_range.mp hi
      simp only [Function.comp]
      rw [Nat.add_comm, Nat.add_mul_mod_self_right, Nat.mod_eq_of_lt hi2]
    rw [List.map_congr_left he, sum_getD_range]
    ring

theorem total_zap_plan_of_counts (bsz cs m bc : Nat) :
    ∀ (allocs : List (Nat × Nat)),
      (∀ a ∈ allocs, alloc_num bc a.1 = m * pyPercentOf a.1 cs) →
      total_zap_plan bc bsz allocs =
        m * bsz * (allocs.map (fun a => pyPercentOf a.1 cs * a.2)).sum
  | [], _ => by simp [total_zap_plan, batch_allocations_calc]
  | a :: t, h => by
    have ht := total_zap_plan_of_counts bsz cs m bc t
      (fun x hx => h x (List.mem_cons_of_mem _ hx))
    have ha := h a (List.mem_cons_self _ _)
    simp only [total_zap_plan, batch_allocations_calc, List.map_cons, List.sum_cons] at ht ⊢
    rw [ht, ha]
    ring

set_option maxRecDepth 1000000 in
/-- C5 counterexample: at the script's own constants (range 1202-1351, batch
size 10, zap_cents 100, clump size 10, tiers (80,5),(10,10),(10,20)), the sum
of the totals emitted into the plan file — `value * zap_cents + tx_fee` per
batch — is 105150, while Σ(value_i × count_i × batch_size) is 10500: the
emitted totals are per-foil minor units plus the fee, so the two sums differ. -/
theorem allocator_plan_sum_cex :
    ((batches_of batch_start batch_end zap_cents
        (clumps_of clump_size batch_allocations)).map Prod.snd).sum = 105150 ∧
    total_zap_plan (batch_count batch_start batch_end) batch_size batch_allocations =
      10500 ∧
    ((batches_of batch_start batch_end zap_cents
        (clumps_of clump_size batch_allocations)).map Prod.snd).sum ≠
      total_zap_plan (batch_count batch_start batch_end) batch_size batch_allocations := by
  have hcl : clumps_of clump_size batch_allocations =
      [5, 5, 5, 5, 5, 5, 5, 5, 10, 20] := by decide
  have hplan : total_zap_plan (batch_count batch_start batch_end) batch_size
      batch_allocations = 10500 := by decide
  refine ⟨?_, hplan, ?_⟩
  · rw [hcl]
    decide
  · rw [hcl, hplan]
    decide

set_option maxRecDepth 1000000 in
/-- C5 (amended): net of the per-transfer fee and converted from minor units
back to whole-token per-batch totals — `(total − tx_fee) / zap_cents ×
batch_size` per emitted pair — the plan sums to Σ(value_i × count_i ×
batch_size), provided the script's float-truncated counts line up: the
per-clump tier counts `int(p/100.0 * clump_size)` fill the clump exactly,
and each tier's whole-range count `int(p/100.0 * batch_count)` equals the
number of clumps times its per-clump count (both hold at the script's own
constants); and for batch_count = 150 with tiers (80,5),(10,10),(10,20) the
tier batch counts are 120, 15 and 15. -/
theorem allocator_plan_sum (bs be bsz zc cs m : Nat) (allocs : List (Nat × Nat))
    (hbs : 1 ≤ bs) (hbe : bs ≤ be + 1)
    (hL : (clumps_of cs allocs).length = cs)
    (hnum : ∀ a ∈ allocs, alloc_num (batch_count bs be) a.1 = m * pyPercentOf a.1 cs)
    (hcs : 0 < cs) (hzc : 0 < zc)
    (hm : batch_count bs be = m * cs) :
    ((batches_of bs be zc (clumps_of cs allocs)).map
        (fun p => (p.2 - 1) / zc * bsz)).sum =
      total_zap_plan (batch_count bs be) bsz allocs ∧
    (batch_allocations_calc 150 10 batch_allocations).map (fun e => e.2.2.1) =
      [120, 15, 15] := by
  refine ⟨?_, by decide⟩
  have hn : be + 1 - bs = m * (clumps_of cs allocs).length := by
    rw [hL]
    rw [batch_count] at hm
    omega
  rw [batches_of, hn, List.map_map]
  have hmap : (List.range (m * (clumps_of cs allocs).length)).map
      ((fun p : Nat × Nat => (p.2 - 1) / zc * bsz) ∘
        (fun j => (bs + j,
          (clumps_of cs allocs).getD (j % (clumps_of cs allocs).length) 0 * zc + 1))) =
      (List.range (m * (clumps_of cs allocs).length)).map
        (fun j => (clumps_of cs allocs).getD (j % (clumps_of cs allocs).length) 0 * bsz) := by
    apply List.map_congr_left
    intro j _
    simp only [Function.comp]
    rw [Nat.add_sub_cancel, Nat.mul_div_cancel _ hzc]
  rw [hmap, List.sum_map_mul_right, sum_cycle (clumps_of cs allocs) (by omega) m,
    total_zap_plan_of_counts bsz cs m (batch_count bs be) allocs hnum,
    clumps_of_sum cs allocs]
  ring

set_option maxRecDepth 1000000 in
/-- Witness for `allocator_plan_sum` at the script's own constants
(m = 15 clumps of 10 over 150 batches). -/
theorem allocator_plan_sum_witness :
    ((batches_of 1202 1351 100 (clumps_of 10 batch_allocations)).map
        (fun p => (p.2 - 1) / 100 * 10)).sum =
      total_zap_plan (batch_count 1202 1351) 10 batch_allocations ∧
    (batch_allocations_calc 150 10 batch_allocations).map (fun e => e.2.2.1) =
      [120, 15, 15] :=
  allocator_plan_sum 1202 1351 10 100 10 15 batch_allocations (by decide) (by decide)
    (by decide) (by decide) (by decide) (by decide) (by decide)

end BatchSpec

end ZapFoil
